import Mathlib

/-!
Verification development for the Gemini-Deno streaming reverse proxy.

The repository holds four near-duplicate variants of one Deno request
handler: `src/main.ts` and the three unnamed variants
`src/unnamed/part_000`, `part_001`, `part_002`.  Each relevant fragment
of the TypeScript is shallowly embedded below as an executable Lean
definition; JavaScript strings are embedded as `List Char`, machine
timestamps as `Nat`, and each stateful loop as an explicit step
function over a small state type together with an event trace.
-/

/-! ## Path rewrite (all variants, identical code)

`main.ts` lines 44-47 (and `part_000` 20-23, `part_001` 23-24,
`part_002` 32-35):

  let targetPath = url.pathname;
  if (targetPath.startsWith("/models")) targetPath = "/v1beta" + targetPath;

`String.startsWith` on a JS string is a raw character-sequence prefix
test, embedded as `List.isPrefixOf` over the path's characters. -/

/-- The characters of the string literal `"/models"`. -/
def modelsPfx : List Char := ['/', 'm', 'o', 'd', 'e', 'l', 's']

/-- The characters of the string literal `"/v1beta"`. -/
def v1betaPfx : List Char := ['/', 'v', '1', 'b', 'e', 't', 'a']

/-- Embedding of the path-fix step: prepend `"/v1beta"` exactly when the
pathname starts with the raw character sequence `"/models"`. -/
def rewritePath (p : List Char) : List Char :=
  if modelsPfx.isPrefixOf p then v1betaPfx ++ p else p

/-! ## Query and header translation (`main.ts` lines 49-58)

  const targetUrl = new URL(targetPath + url.search, "https://generativelanguage.googleapis.com");
  if (!targetUrl.searchParams.has("alt")) targetUrl.searchParams.set("alt", "sse");
  const newHeaders = new Headers(req.headers);
  newHeaders.set("Host", "generativelanguage.googleapis.com");
  newHeaders.delete("x-forwarded-for");

Query parameters and headers are embedded as association lists of
strings; header names are taken already lowercased, as the `Headers`
class normalizes them. -/

def altKey : String := "alt"

def sseVal : String := "sse"

def hostKey : String := "host"

def xffKey : String := "x-forwarded-for"

def upstreamHost : String := "generativelanguage.googleapis.com"

/-- Embedding of `searchParams.has("alt")`. -/
def hasAlt (ps : List (String × String)) : Bool :=
  ps.any (fun kv => kv.1 == altKey)

/-- Embedding of the force-SSE step: `URLSearchParams.set` appends the
parameter when it is absent and leaves the list unchanged otherwise
(the code only calls it under `!has("alt")`). -/
def forceSSE (ps : List (String × String)) : List (String × String) :=
  if hasAlt ps then ps else ps ++ [(altKey, sseVal)]

/-- Embedding of `Headers.set`: drop every entry with the given name and
record the new value. -/
def setHdr (k v : String) (hs : List (String × String)) : List (String × String) :=
  hs.filter (fun kv => kv.1 != k) ++ [(k, v)]

/-- Embedding of `Headers.delete`: drop every entry with the given name. -/
def delHdr (k : String) (hs : List (String × String)) : List (String × String) :=
  hs.filter (fun kv => kv.1 != k)

/-- The outbound header construction of `main.ts` lines 56-58. -/
def buildHeaders (hs : List (String × String)) : List (String × String) :=
  delHdr xffKey (setHdr hostKey upstreamHost hs)

/-- Rendering of one query parameter as `key=value`. -/
def renderParam (kv : String × String) : List Char :=
  kv.1.toList ++ ['='] ++ kv.2.toList

/-- Rendering of a parameter list as the serialized query string the URL
class produces: empty for no parameters, otherwise `?k=v&k=v...`. -/
def renderQuery : List (String × String) → List Char
  | [] => []
  | kv :: rest => '?' :: renderParam kv ++ (rest.map (fun p => '&' :: renderParam p)).flatten

/-- The upstream path-plus-query produced for a given inbound pathname and
parsed query parameters (`main.ts` lines 44-54). -/
def buildTarget (pathname : List Char) (ps : List (String × String)) : List Char :=
  rewritePath pathname ++ renderQuery (forceSSE ps)

/-! ## Wire frames emitted by the relay itself

`main.ts` line 115:  encoder.encode(": start\n\n")
`main.ts` line 120:  encoder.encode(`: keep-alive ${Date.now()}\n\n`)
`main.ts` line 156:  encoder.encode(`data: {"error": "Proxy Stream Error: ${e.message}"}\n\n`)

Frames are byte strings, embedded as `List Char`.  The interpolated
`Date.now()` value is a decimal number rendered by `Nat.repr`. -/

/-- The start-of-stream marker frame, `": start\n\n"`. -/
def startFrame : List Char := [':', ' ', 's', 't', 'a', 'r', 't', '\n', '\n']

/-- The heartbeat frame for tick timestamp `t`:
the characters of `": keep-alive "` followed by the decimal timestamp
and the `"\n\n"` terminator. -/
def heartbeatFrame (t : Nat) : List Char :=
  [':', ' ', 'k', 'e', 'e', 'p', '-', 'a', 'l', 'i', 'v', 'e', ' ']
    ++ (Nat.repr t).toList ++ ['\n', '\n']

/-- The inline error-notification frame for message `msg`:
the characters of `data: {"error": "Proxy Stream Error: ` followed by the
message, the closing `"}` and the `"\n\n"` terminator. -/
def errorFrame (msg : List Char) : List Char :=
  ['d', 'a', 't', 'a', ':', ' ', '\x7b', '"', 'e', 'r', 'r', 'o', 'r', '"', ':', ' ', '"',
   'P', 'r', 'o', 'x', 'y', ' ', 'S', 't', 'r', 'e', 'a', 'm', ' ',
   'E', 'r', 'r', 'o', 'r', ':', ' ']
    ++ msg ++ ['"', '\x7d', '\n', '\n']

/-- Modelled from the spec: a comment-style frame of the form
`: <label> <timestamp>\n\n` carrying a label and a timestamp, as the
spec describes both the start marker and each heartbeat. -/
def commentFrame (label ts : List Char) : List Char :=
  [':', ' '] ++ label ++ [' '] ++ ts ++ ['\n', '\n']

/-- Modelled from the spec: a comment-style frame with a label and no
timestamp component. -/
def commentNoTs (label : List Char) : List Char :=
  [':', ' '] ++ label ++ ['\n', '\n']

/-- Modelled from the spec: a data frame carrying an arbitrary payload,
`data: <payload>\n\n`. -/
def dataFrame (payload : List Char) : List Char :=
  ['d', 'a', 't', 'a', ':', ' '] ++ payload ++ ['\n', '\n']

/-- Modelled from the spec: the small JSON error payload
`{"error": "<message>"}`. -/
def jsonError (msg : List Char) : List Char :=
  ['\x7b', '"', 'e', 'r', 'r', 'o', 'r', '"', ':', ' ', '"'] ++ msg ++ ['"', '\x7d']

/-- The characters of the label `keep-alive`. -/
def keepAliveLabel : List Char := ['k', 'e', 'e', 'p', '-', 'a', 'l', 'i', 'v', 'e']

/-- The characters of the label `start`. -/
def startLabel : List Char := ['s', 't', 'a', 'r', 't']

/-- The characters of the fixed error-message prelude `Proxy Stream Error: `. -/
def proxyErrLabel : List Char :=
  ['P', 'r', 'o', 'x', 'y', ' ', 'S', 't', 'r', 'e', 'a', 'm', ' ',
   'E', 'r', 'r', 'o', 'r', ':', ' ']

/-! ## Upstream connect with retry

`part_002` lines 56-80 (and `part_000` lines 46-65, identical logic):

  let response; let attempt = 0;
  while (attempt < 3) {
    attempt++;
    try {
      response = await fetch(targetUrl, ...);
      if (response.status === 503 || response.status === 429) {
        await new Promise(r => setTimeout(r, 1000 * attempt));
        continue;
      }
      break;
    } catch (e) {
      if (attempt === 3) throw e;
    }
  }
  if (!response) throw new Error("Failed to connect to Google upstream.");

`main.ts` lines 71-81 instead perform a single `fetch` in a try/catch
that logs and rethrows any network error, with no loop.

The nondeterministic environment is an oracle `out : Nat → FetchOutcome`
giving the outcome of the n-th fetch attempt.  Each run produces an
event trace (fetch attempts and backoff sleeps) and a result. -/

/-- Outcome of one `fetch` call: a thrown network error, or a response
with the given status code. -/
inductive FetchOutcome where
  | netErr : FetchOutcome
  | ok : Nat → FetchOutcome
deriving DecidableEq

/-- Observable events of the connect phase. -/
inductive RetryEvent where
  | fetchAttempt : Nat → RetryEvent
  | sleep : Nat → RetryEvent
deriving DecidableEq

/-- Result of the connect phase: a returned response status, a rethrown
network error, or the dead-code `!response` throw. -/
inductive RetryResult where
  | returned : Nat → RetryResult
  | netThrow : RetryResult
  | noResponse : RetryResult
deriving DecidableEq

/-- Whether an attempt outcome causes the loop to try again (while budget
remains): a network error, or a response whose status is 503 or 429. -/
def retryableB : FetchOutcome → Bool
  | .netErr => true
  | .ok s => s == 503 || s == 429

/-- Whether an attempt outcome is a retryable-status response (a 503 or
429 response, as opposed to a thrown network error). -/
def retryStatusB : FetchOutcome → Bool
  | .netErr => false
  | .ok s => s == 503 || s == 429

/-- What happens after the `while` loop exits by its guard: line 82,
`if (!response) throw ...`, otherwise the stored response is used. -/
def loopExitRes : Option Nat → List RetryEvent × RetryResult
  | none => ([], .noResponse)
  | some s => ([], .returned s)

/-- The retry loop of `part_002` lines 59-80.  `attempt` is the counter
before the `attempt++` of the next iteration and `resp` the last stored
response status, mirroring the mutable `attempt` and `response`
variables. -/
def retryLoop (out : Nat → FetchOutcome) (attempt : Nat) (resp : Option Nat) :
    List RetryEvent × RetryResult :=
  if _h : attempt < 3 then
    match out (attempt + 1) with
    | .netErr =>
        if attempt + 1 = 3 then ([.fetchAttempt (attempt + 1)], .netThrow)
        else
          let r := retryLoop out (attempt + 1) resp
          (.fetchAttempt (attempt + 1) :: r.1, r.2)
    | .ok s =>
        if s = 503 ∨ s = 429 then
          let r := retryLoop out (attempt + 1) (some s)
          (.fetchAttempt (attempt + 1) :: .sleep (1000 * (attempt + 1)) :: r.1, r.2)
        else ([.fetchAttempt (attempt + 1)], .returned s)
  else loopExitRes resp
termination_by 3 - attempt

/-- The result a single fetch outcome yields when the loop stops at it:
the response status as-is, or the rethrown network error. -/
def resOf : FetchOutcome → RetryResult
  | .ok s => .returned s
  | .netErr => .netThrow

/-- The whole connect phase of `part_002`: the loop started with
`attempt = 0` and no stored response. -/
def connectRetry (out : Nat → FetchOutcome) : List RetryEvent × RetryResult :=
  retryLoop out 0 none

/-- The connect phase of `main.ts` lines 71-81: exactly one fetch; any
response is kept as-is and a network error propagates (the catch merely
logs and rethrows). -/
def mainFetch (out : Nat → FetchOutcome) : List RetryEvent × RetryResult :=
  match out 1 with
  | .netErr => ([.fetchAttempt 1], .netThrow)
  | .ok s => ([.fetchAttempt 1], .returned s)

/-- A concrete environment in which every fetch attempt returns HTTP 429. -/
def c1out : Nat → FetchOutcome := fun _ => .ok 429

/-- Closed form of the trace the loop produces from its third attempt. -/
def trace3 (out : Nat → FetchOutcome) : List RetryEvent :=
  if retryStatusB (out 3) then [.fetchAttempt 3, .sleep 3000] else [.fetchAttempt 3]

/-- Closed form of the trace the loop produces from its second attempt. -/
def trace2 (out : Nat → FetchOutcome) : List RetryEvent :=
  if retryableB (out 2) = false then [.fetchAttempt 2]
  else if retryStatusB (out 2) then .fetchAttempt 2 :: .sleep 2000 :: trace3 out
  else .fetchAttempt 2 :: trace3 out

/-- Closed form of the full trace of the retry loop. -/
def trace1 (out : Nat → FetchOutcome) : List RetryEvent :=
  if retryableB (out 1) = false then [.fetchAttempt 1]
  else if retryStatusB (out 1) then .fetchAttempt 1 :: .sleep 1000 :: trace2 out
  else .fetchAttempt 1 :: trace2 out

/-- Closed form of the result of the retry loop: the first non-retryable
outcome settles it, and after two retryable outcomes the third attempt
settles it whatever it is. -/
def resLvl (out : Nat → FetchOutcome) : RetryResult :=
  if retryableB (out 1) = false then resOf (out 1)
  else if retryableB (out 2) = false then resOf (out 2)
  else resOf (out 3)

/-! ## Session state and downstream write submission

`part_001` lines 51-69:

  let lastWriteTime = Date.now();
  let isWriting = false;
  let isFinished = false;
  const fastWrite = async (data) => {
    if (isFinished) return;
    try {
      isWriting = true;
      await writer.ready;
      await writer.write(data);
      lastWriteTime = Date.now();
    } catch (e) { isFinished = true; }
    finally { isWriting = false; }
  };

`main.ts` lines 13-28 and `part_002` lines 10-20 instead define a
stateless helper:

  async function safeWrite(writer, data) {
    try { await writer.ready; await writer.write(data); return true; }
    catch (e) { return false; }
  }

`fastWrite` is embedded as an atomic state transformer: the sink either
accepts the write or rejects it (`rej`), `now` is `Date.now()` at
completion, and the returned flag records whether a write was attempted
at all.  `isWriting` is `true` only strictly inside a write, so a whole
atomic call leaves it `false`. -/

/-- The mutable state of one `part_001` relay session. -/
structure Sess where
  lastWriteTime : Nat
  isWriting : Bool
  isFinished : Bool
deriving DecidableEq

/-- Embedding of `part_001`'s `fastWrite` as one atomic call.  Returns the
updated session and whether a downstream write was attempted. -/
def fastWrite (s : Sess) (now : Nat) (rej : Bool) : Sess × Bool :=
  if s.isFinished then (s, false)
  else if rej then ({ s with isFinished := true, isWriting := false }, true)
  else ({ s with lastWriteTime := now, isWriting := false }, true)

/-- Embedding of the stateless `safeWrite` of `main.ts` / `part_002`:
the pair (returned boolean, write attempted).  It consults no session
state, always attempts the write, and returns `true` exactly when the
sink accepted it. -/
def safeWriteM (rej : Bool) : Bool × Bool := (!rej, true)

/-! ## Heartbeat scheduling

`part_001` lines 74-86 (passive heartbeat task):

  while (!isFinished) {
    await new Promise(r => setTimeout(r, 2000));
    if (isFinished) break;
    if (!isWriting && (Date.now() - lastWriteTime > 10000)) {
      await fastWrite(encoder.encode(`: keep-alive ...`));
    }
  }

`main.ts` lines 118-125 (unconditional timer):

  heartbeatInterval = setInterval(async () => {
    const success = await safeWrite(writer, encoder.encode(`: keep-alive ...`), ...);
    if (!success) clearInterval(heartbeatInterval);
  }, 10000);

A session's observable history is a list of events: data-chunk write
attempts from the pump and heartbeat ticks, each carrying the clock
value and whether the sink would reject the write. -/

/-- One observable event of a relay session. -/
inductive Ev where
  | data : Nat → Bool → Ev
  | tick : Nat → Bool → Ev
deriving DecidableEq

/-- One step of the `part_001` session: a pump data write goes through
`fastWrite`; a heartbeat tick submits a keepalive (recorded in the
output) exactly when the loop is alive and the idle guard
`!isWriting && now - lastWriteTime > 10000` passes. -/
def stepS (s : Sess) (e : Ev) : Sess × Option Nat :=
  match e with
  | .data t rej => ((fastWrite s t rej).1, none)
  | .tick t rej =>
      if s.isFinished then (s, none)
      else if s.isWriting = false ∧ 10000 < t - s.lastWriteTime then
        ((fastWrite s t rej).1, some t)
      else (s, none)

/-- Run a `part_001` session over an event history, collecting the
timestamps of the submitted keepalives. -/
def runS (s : Sess) : List Ev → Sess × List Nat
  | [] => (s, [])
  | e :: es =>
      let p := stepS s e
      let q := runS p.1 es
      (q.1, p.2.toList ++ q.2)

/-- Run the `main.ts` heartbeat timer over an event history: every tick
submits a keepalive unconditionally while the interval is not cleared;
the interval is cleared only when the keepalive's own write fails.
Data events never consult or affect the timer. -/
def runMainHB (cleared : Bool) : List Ev → List Nat
  | [] => []
  | Ev.data _ _ :: es => runMainHB cleared es
  | Ev.tick t rej :: es =>
      if cleared then runMainHB cleared es else t :: runMainHB rej es

/-! ## Write interleaving (concurrency model for the serialization claim)

The pump (`part_001` lines 101-108) and the heartbeat task (lines
74-86) run concurrently and both call `fastWrite`.  Here one call is
split into its two visible endpoints: `begin` (the synchronous part up
to `isWriting = true` and the first suspension) and `end` (resumption
after `writer.write`, running the catch/finally).  A scheduler picks an
arbitrary interleaving of the two tasks' endpoints; the log records
enter/exit of the downstream write intervals. -/

/-- The two writing tasks of a session. -/
inductive Who where
  | pump : Who
  | hb : Who
deriving DecidableEq

/-- Instrumented sink events: a write interval opens or closes. -/
inductive WEv where
  | enter : Who → WEv
  | exit : Who → WEv
deriving DecidableEq

/-- Control state of one task: between writes, or mid-write. -/
inductive TPC where
  | idle : TPC
  | writing : TPC
deriving DecidableEq

/-- Shared state of the interleaved session: the three `part_001`
variables, each task's position, and the instrumented sink log. -/
structure CState where
  isWriting : Bool
  isFinished : Bool
  lastWriteTime : Nat
  pumpPC : TPC
  hbPC : TPC
  log : List WEv
deriving DecidableEq

/-- Scheduler choices.  `pumpBegin` is the pump entering `fastWrite` with
a data chunk (guarded only by `isFinished`); `hbTick` is a heartbeat
tick entering `fastWrite` (guarded by the idle check and `!isWriting`);
the `end` choices complete the corresponding in-flight write, with
`rej` telling whether the sink rejected it. -/
inductive CChoice where
  | pumpBegin : Nat → CChoice
  | pumpEnd : Bool → Nat → CChoice
  | hbTick : Nat → CChoice
  | hbEnd : Bool → Nat → CChoice
deriving DecidableEq

/-- One scheduler step of the interleaved session. -/
def cstep (s : CState) (c : CChoice) : CState :=
  match c with
  | .pumpBegin _ =>
      if s.pumpPC = .idle ∧ s.isFinished = false then
        { s with isWriting := true, pumpPC := .writing, log := s.log ++ [.enter .pump] }
      else s
  | .pumpEnd rej now =>
      if s.pumpPC = .writing then
        if rej then
          { s with isFinished := true, isWriting := false, pumpPC := .idle,
                   log := s.log ++ [.exit .pump] }
        else
          { s with lastWriteTime := now, isWriting := false, pumpPC := .idle,
                   log := s.log ++ [.exit .pump] }
      else s
  | .hbTick now =>
      if s.hbPC = .idle ∧ s.isFinished = false ∧ s.isWriting = false
          ∧ 10000 < now - s.lastWriteTime then
        { s with isWriting := true, hbPC := .writing, log := s.log ++ [.enter .hb] }
      else s
  | .hbEnd rej now =>
      if s.hbPC = .writing then
        if rej then
          { s with isFinished := true, isWriting := false, hbPC := .idle,
                   log := s.log ++ [.exit .hb] }
        else
          { s with lastWriteTime := now, isWriting := false, hbPC := .idle,
                   log := s.log ++ [.exit .hb] }
      else s

/-- Run the interleaved session under a schedule. -/
def crun (s : CState) : List CChoice → CState
  | [] => s
  | c :: cs => crun (cstep s c) cs

/-- The initial session state: fresh flags, activity clock at 0, both
tasks idle, empty log. -/
def cInit : CState :=
  { isWriting := false, isFinished := false, lastWriteTime := 0,
    pumpPC := .idle, hbPC := .idle, log := [] }

/-- Whether the given task has an open write interval at the end of the
log. -/
def openW (log : List WEv) (w : Who) : Bool :=
  log.foldl
    (fun b e =>
      match e with
      | .enter w' => if w' = w then true else b
      | .exit w' => if w' = w then false else b)
    false

/-- Number of write intervals open at the end of the log. -/
def inFlightCount (log : List WEv) : Nat :=
  (if openW log .pump then 1 else 0) + (if openW log .hb then 1 else 0)

/-- Scan for a moment at which a write interval opens while `n` others
are already open. -/
def overlapAux : List WEv → Nat → Bool
  | [], _ => false
  | WEv.enter _ :: es, n => if 1 ≤ n then true else overlapAux es (n + 1)
  | WEv.exit _ :: es, n => overlapAux es (n - 1)

/-- Whether at some instant two write intervals were simultaneously in
flight. -/
def hasOverlap (log : List WEv) : Bool := overlapAux log 0

/-- Number of write intervals still open after the log, starting from `n`
already open. -/
def openEnd : List WEv → Nat → Nat
  | [], n => n
  | WEv.enter _ :: es, n => openEnd es (n + 1)
  | WEv.exit _ :: es, n => openEnd es (n - 1)

/-! ## Heartbeat-timer cleanup on the termination paths

`part_000` lines 75-107 (background task):

  try {
    ...
    const heartbeat = setInterval(...);
    while (true) {
      const { done, value } = await reader.read();   // may throw
      if (done) break;
      await writer.write(value);                     // may reject
    }
    clearInterval(heartbeat);
    await writer.close();
  } catch (e) {
    try { await writer.close(); } catch (_) {}       // no clearInterval!
  }

`main.ts` lines 157-161 instead run `clearInterval(heartbeatInterval)`
in a `finally` block, on every exit of the task (`part_002` lines
123-126 likewise).

The upstream is a list of read results (`chunk` or a thrown read
failure); `rej i` tells whether the i-th downstream chunk write is
rejected.  The model starts after the start marker has been written
and the interval created. -/

/-- One upstream read result: a data chunk, or a read that throws. -/
inductive UpEv where
  | chunk : Nat → UpEv
  | fail : UpEv
deriving DecidableEq

/-- How the pump loop of `part_000` ends: by `break` on EOF, or by an
exception (upstream read error, or downstream write rejection, which
makes `await writer.write` throw). -/
inductive LoopExit where
  | finished : LoopExit
  | threw : LoopExit
deriving DecidableEq

/-- The `part_000` pump loop (lines 95-99): read, break on done, write. -/
def part0Loop (rej : Nat → Bool) : List UpEv → Nat → LoopExit
  | [], _ => .finished
  | UpEv.fail :: _, _ => .threw
  | UpEv.chunk _ :: cs, i => if rej i then .threw else part0Loop rej cs (i + 1)

/-- Whether the `part_000` background task clears the heartbeat interval:
only the clean-EOF path runs `clearInterval` (line 101); the catch
block (lines 103-106) closes the writer without clearing it. -/
def part0TimerCleared (rej : Nat → Bool) (up : List UpEv) : Bool :=
  match part0Loop rej up 0 with
  | .finished => true
  | .threw => false

/-- Whether the `main.ts` background task clears the heartbeat interval:
the `finally` block of lines 157-161 runs `clearInterval` on every
exit of the task, however the loop ended. -/
def mainTimerCleared : LoopExit → Bool
  | _ => true

/-! ## Data pump traces

`main.ts` lines 127-151 (with `safeWrite`):

  while (true) {
    const { done, value } = await reader.read();
    if (done) break;
    const success = await safeWrite(writer, value, ...);
    if (!success) break;
  }
  // catch: safeWrite(errorFrame)

`part_001` lines 101-108 (with `fastWrite` and the shared flags):

  while (true) {
    const { done, value } = await reader.read();
    if (done || isFinished) break;
    await fastWrite(value);
  }
  // catch: if (!isFinished) fastWrite(errorFrame)

Each run is recorded as a trace of pump events, so the reads occurring
after a rejected write are directly observable. -/

/-- Observable pump events: an upstream read (returning a chunk, EOF, or
throwing), a downstream chunk write attempt with its rejection flag,
and an inline error-notification frame write. -/
inductive PEv where
  | readChunk : PEv
  | readDone : PEv
  | readErr : PEv
  | write : Bool → PEv
  | errFrame : PEv
deriving DecidableEq

/-- Trace of the `main.ts` pump over the upstream read results, with
`rej i` the sink's answer to the i-th chunk write.  A rejected write
breaks the loop at once; an upstream read error falls to the catch
block, which writes the error frame. -/
def mainTrace (rej : Nat → Bool) : List UpEv → Nat → List PEv
  | [], _ => [.readDone]
  | UpEv.fail :: _, _ => [.readErr, .errFrame]
  | UpEv.chunk _ :: cs, i =>
      .readChunk :: .write (rej i) ::
        (if rej i then [] else mainTrace rej cs (i + 1))

/-- Trace of the `part_001` pump.  `fin` is the shared `isFinished` flag:
a rejected `fastWrite` sets it silently, the loop tests it only after
the next upstream read, and the catch block skips the error frame when
it is set. -/
def p1Trace (rej : Nat → Bool) : List UpEv → Nat → Bool → List PEv
  | [], _, _ => [.readDone]
  | UpEv.fail :: _, _, fin => .readErr :: (if fin then [] else [.errFrame])
  | UpEv.chunk _ :: cs, i, fin =>
      .readChunk :: (if fin then [] else .write (rej i) :: p1Trace rej cs (i + 1) (rej i))

/-- Whether a pump event is an upstream read. -/
def isReadEv : PEv → Bool
  | .readChunk => true
  | .readDone => true
  | .readErr => true
  | _ => false

/-- The part of a trace strictly after the first rejected downstream
write (empty when no write is rejected). -/
def afterFirstRej (tr : List PEv) : List PEv :=
  (tr.dropWhile (fun e => e ≠ PEv.write true)).drop 1

/-- How many upstream reads occur after the first rejected write. -/
def readsAfterFirstRej (tr : List PEv) : Nat :=
  (afterFirstRej tr).countP (fun e => isReadEv e = true)

/-- How many error-notification frames occur after the first rejected
write. -/
def errFramesAfterFirstRej (tr : List PEv) : Nat :=
  (afterFirstRej tr).countP (fun e => e = PEv.errFrame)

/-- A sink that rejects the first chunk write and accepts the rest. -/
def rejFirst : Nat → Bool := fun i => i == 0

/-! ## Helper lemmas -/

/-- `List.isPrefixOf` over characters decides exactly the existence of a
completing suffix. -/
theorem isPrefixOf_iff_append (l p : List Char) :
    l.isPrefixOf p = true ↔ ∃ t, p = l ++ t := by
  induction l generalizing p with
  | nil => simp [List.isPrefixOf]
  | cons a as ih =>
    cases p with
    | nil => simp [List.isPrefixOf]
    | cons b bs =>
      simp only [List.isPrefixOf, Bool.and_eq_true, beq_iff_eq, ih, List.cons_append,
        List.cons.injEq]
      constructor
      · rintro ⟨rfl, t, rfl⟩
        exact ⟨t, rfl, rfl⟩
      · rintro ⟨t, rfl, rfl⟩
        exact ⟨rfl, t, rfl⟩

/-- A list is a prefix of itself extended by anything. -/
theorem models_isPfx_append (t : List Char) :
    modelsPfx.isPrefixOf (modelsPfx ++ t) = true :=
  (isPrefixOf_iff_append _ _).mpr ⟨t, rfl⟩

/-- `"/models"` is never a prefix of a path that starts with `"/v1beta"`:
the second characters differ. -/
theorem models_not_pfx_v1beta (t : List Char) :
    modelsPfx.isPrefixOf (v1betaPfx ++ t) = false := by
  rfl

/-! ## Claim C6 -/

/-- C6: the path rewrite is idempotent — rewriting any already-rewritten
path is a no-op, every path of the form `/v1beta/models/x` is left
unchanged, and every path of the form `/models/x` becomes
`/v1beta/models/x`. -/
theorem path_rewrite_idempotent :
    (∀ p : List Char, rewritePath (rewritePath p) = rewritePath p)
    ∧ (∀ x : List Char,
        rewritePath (v1betaPfx ++ (modelsPfx ++ ('/' :: x))) = v1betaPfx ++ (modelsPfx ++ ('/' :: x)))
    ∧ (∀ x : List Char,
        rewritePath (modelsPfx ++ ('/' :: x)) = v1betaPfx ++ (modelsPfx ++ ('/' :: x))) := by
  refine ⟨fun p => ?_, fun x => ?_, fun x => ?_⟩
  · by_cases h : modelsPfx.isPrefixOf p = true
    · have h1 : rewritePath p = v1betaPfx ++ p := by rw [rewritePath, if_pos h]
      rw [h1, rewritePath, models_not_pfx_v1beta]
      simp
    · have h1 : rewritePath p = p := by rw [rewritePath, if_neg h]
      rw [h1]
      exact h1
  · rw [rewritePath, models_not_pfx_v1beta]
    simp
  · rw [rewritePath, models_isPfx_append]
    simp

/-! ## Claim C10 -/

/-- C10: the rewrite tests a raw string prefix, not a path segment — every
path beginning with the character sequence `/models` (a slash after it
or not, e.g. `/modelsfoo`) gets `/v1beta` prepended, and every other
path is left unchanged. -/
theorem path_raw_prefix_rewrite :
    (∀ p t : List Char, p = modelsPfx ++ t → rewritePath p = v1betaPfx ++ p)
    ∧ (∀ p : List Char, (¬ ∃ t, p = modelsPfx ++ t) → rewritePath p = p)
    ∧ rewritePath (modelsPfx ++ ['f', 'o', 'o']) = v1betaPfx ++ (modelsPfx ++ ['f', 'o', 'o']) := by
  refine ⟨?_, ?_, ?_⟩
  · rintro p t rfl
    rw [rewritePath, models_isPfx_append]
    simp
  · intro p hne
    have h : modelsPfx.isPrefixOf p = false := by
      rcases hfalse : modelsPfx.isPrefixOf p with _ | _
      · rfl
      · exact absurd ((isPrefixOf_iff_append _ _).mp hfalse) hne
    rw [rewritePath, h]
    simp
  · rw [rewritePath, models_isPfx_append]
    simp

/-- C10 witness: the concrete no-segment path `/modelsfoo` is rewritten to
`/v1beta/modelsfoo`. -/
theorem path_raw_prefix_rewrite_witness :
    rewritePath (modelsPfx ++ ['z']) = v1betaPfx ++ (modelsPfx ++ ['z']) :=
  path_raw_prefix_rewrite.1 _ ['z'] rfl

/-! ## Claim C5 -/

/-- C5 counterexample: the start-of-stream marker emitted by the relay is
`": start\n\n"`, which is not of the claimed form
`": <label> <timestamp>\n\n"` for any label and timestamp — it carries
no timestamp: the frame contains a single space, while the claimed form
always contains at least two. -/
theorem wire_framing_counterexample :
    ¬ ∃ label ts : List Char, startFrame = commentFrame label ts := by
  rintro ⟨l, ts, h⟩
  have h' : ['s', 't', 'a', 'r', 't', '\n', '\n'] = l ++ ' ' :: (ts ++ ['\n', '\n']) := by
    simpa [startFrame, commentFrame] using h
  have hm : (' ' : Char) ∈ l ++ ' ' :: (ts ++ ['\n', '\n']) := by simp
  rw [← h'] at hm
  simp at hm

/-- C5 amended: each heartbeat frame is a comment-style frame
`": keep-alive <timestamp>\n\n"` carrying the tick's timestamp, and
each inline error notification is a data frame whose payload is the
JSON object `{"error": "Proxy Stream Error: <message>"}` followed by
`"\n\n"`; the start-of-stream marker is the fixed comment frame
`": start\n\n"` with a label but no timestamp. -/
theorem wire_framing_amended :
    (∀ t : Nat, heartbeatFrame t = commentFrame keepAliveLabel (Nat.repr t).toList)
    ∧ startFrame = commentNoTs startLabel
    ∧ (∀ msg : List Char, errorFrame msg = dataFrame (jsonError (proxyErrLabel ++ msg))) := by
  refine ⟨fun t => ?_, rfl, fun msg => ?_⟩
  · simp [heartbeatFrame, commentFrame, keepAliveLabel]
  · simp [errorFrame, dataFrame, jsonError, proxyErrLabel]

/-! ## Claim C8 -/

/-- C8: in `part_000` the heartbeat interval is cleared only on the
clean-EOF exit of the pump loop; when the upstream read throws
(`[chunk 1, fail]`) or the downstream sink rejects a write
(`rej = always`), the task leaves through the catch block and the
periodic keepalive timer is never cancelled, outliving its session —
whereas the `finally` block of `main.ts` clears the timer on every
exit. -/
theorem part000_timer_leak :
    part0TimerCleared (fun _ => false) [UpEv.chunk 1, UpEv.fail] = false
    ∧ part0TimerCleared (fun _ => true) [UpEv.chunk 1] = false
    ∧ part0TimerCleared (fun _ => false) [UpEv.chunk 1] = true
    ∧ (∀ e : LoopExit, mainTimerCleared e = true) := by
  exact ⟨rfl, rfl, rfl, fun _ => rfl⟩

/-! ## Claim C1, counterexample -/

/-- C1 counterexample: in `main.ts` an upstream response with status 429
is not retried — the single fetch attempt's 429 ends the connect phase
immediately and is returned as-is, and no second attempt occurs,
contradicting the claim that every 429 response is retried. -/
theorem retry_counterexample_main :
    mainFetch c1out = ([RetryEvent.fetchAttempt 1], RetryResult.returned 429)
    ∧ RetryEvent.fetchAttempt 2 ∉ (mainFetch c1out).1 := by
  refine ⟨rfl, by decide⟩

/-! ## Claim C4, counterexample -/

/-- C4 counterexample: the `safeWrite` of `main.ts` / `part_002` keeps no
session state — a call whose sink rejects returns `false` but marks
nothing terminated, and the very next call still attempts its write
and returns `true` on success, instead of being a no-op returning
`false`. -/
theorem submit_stateless_counterexample :
    safeWriteM true = (false, true) ∧ safeWriteM false = (true, true) := by
  exact ⟨rfl, rfl⟩

/-! ## Claim C2, counterexample -/

/-- C2 counterexample: from a fresh session, the schedule "heartbeat tick
at 20000 (idle, so its keepalive write begins), then the pump begins a
data write at 20001" opens a second write interval while the keepalive
write is still in flight: `fastWrite` guards only on `isFinished`, so
two downstream writes overlap. -/
theorem write_overlap_counterexample :
    hasOverlap (crun cInit [CChoice.hbTick 20000, CChoice.pumpBegin 20001]).log = true := by
  decide

/-! ## Claim C3, counterexample -/

/-- C3 counterexample: the `main.ts` heartbeat ticks unconditionally — at
a tick 1 ms after a successful data write (idle time 1 ms, far below
any idle threshold) it still submits a keepalive, contradicting the
claim that a keepalive is submitted only when the idle time is at
least `idleThresholdMs`. -/
theorem heartbeat_unconditional_counterexample :
    runMainHB false [Ev.data 9999 false, Ev.tick 10000 false] = [10000]
    ∧ 10000 - 9999 < 10000 := by
  exact ⟨rfl, by decide⟩

/-! ## Claim C9, counterexample -/

/-- C9 counterexample: in `part_001`, after the sink rejects the first
chunk write the pump performs one more upstream read (the loop tests
`isFinished` only after the next `reader.read()`), so a further
upstream read does occur after the downstream write rejection. -/
theorem pump_extra_read_counterexample :
    p1Trace rejFirst [UpEv.chunk 10, UpEv.chunk 20] 0 false
      = [PEv.readChunk, PEv.write true, PEv.readChunk]
    ∧ readsAfterFirstRej (p1Trace rejFirst [UpEv.chunk 10, UpEv.chunk 20] 0 false) = 1 := by
  exact ⟨by decide, by decide⟩

/-! ## Claim C1, amended -/

/-- The `while` guard fails at `attempt = 3` and the loop exits. -/
theorem rl3 (out : Nat → FetchOutcome) (resp : Option Nat) :
    retryLoop out 3 resp = loopExitRes resp := by
  rw [retryLoop.eq_def]
  simp

/-- Closed form of the loop from its third attempt. -/
theorem rl2 (out : Nat → FetchOutcome) (resp : Option Nat) :
    retryLoop out 2 resp = (trace3 out, resOf (out 3)) := by
  rcases h : out 3 with _ | s
  · rw [retryLoop.eq_def]
    simp [h, trace3, retryStatusB, resOf]
  · by_cases hs : s = 503 ∨ s = 429
    · have hq : retryStatusB (FetchOutcome.ok s) = true := by
        rcases hs with rfl | rfl <;> rfl
      rw [retryLoop.eq_def]
      simp [h, hs, trace3, hq, rl3, loopExitRes, resOf]
    · have hq : retryStatusB (FetchOutcome.ok s) = false := by
        simp [retryStatusB]
        omega
      rw [retryLoop.eq_def]
      simp [h, hs, trace3, hq, resOf]

/-- Closed form of the loop from its second attempt. -/
theorem rl1 (out : Nat → FetchOutcome) (resp : Option Nat) :
    retryLoop out 1 resp =
      (trace2 out, if retryableB (out 2) = false then resOf (out 2) else resOf (out 3)) := by
  rcases h : out 2 with _ | s
  · rw [retryLoop.eq_def]
    simp [h, trace2, retryableB, retryStatusB, rl2]
  · by_cases hs : s = 503 ∨ s = 429
    · have hb : retryableB (FetchOutcome.ok s) = true := by
        rcases hs with rfl | rfl <;> rfl
      have hq : retryStatusB (FetchOutcome.ok s) = true := by
        rcases hs with rfl | rfl <;> rfl
      rw [retryLoop.eq_def]
      simp [h, hs, trace2, hb, hq, rl2]
    · have hb : retryableB (FetchOutcome.ok s) = false := by
        simp [retryableB]
        omega
      rw [retryLoop.eq_def]
      simp [h, hs, trace2, hb, resOf]

/-- Closed form of the whole loop. -/
theorem rl0 (out : Nat → FetchOutcome) (resp : Option Nat) :
    retryLoop out 0 resp = (trace1 out, resLvl out) := by
  rcases h : out 1 with _ | s
  · rw [retryLoop.eq_def]
    simp [h, trace1, resLvl, retryableB, retryStatusB, rl1, resOf]
  · by_cases hs : s = 503 ∨ s = 429
    · have hb : retryableB (FetchOutcome.ok s) = true := by
        rcases hs with rfl | rfl <;> rfl
      have hq : retryStatusB (FetchOutcome.ok s) = true := by
        rcases hs with rfl | rfl <;> rfl
      rw [retryLoop.eq_def]
      simp [h, hs, trace1, resLvl, hb, hq, rl1]
    · have hb : retryableB (FetchOutcome.ok s) = false := by
        simp [retryableB]
        omega
      rw [retryLoop.eq_def]
      simp [h, hs, trace1, resLvl, hb, resOf]

/-- The connect phase equals its closed form. -/
theorem connect_eq (out : Nat → FetchOutcome) :
    connectRetry out = (trace1 out, resLvl out) := rl0 out none

/-- A retryable-status outcome is in particular retryable. -/
theorem retryStatusB_le (o : FetchOutcome) : retryStatusB o = true → retryableB o = true := by
  cases o <;> simp [retryStatusB, retryableB]

/-- Exactly which fetch attempts appear in a run of the retry loop. -/
theorem mem_attempt_connect (out : Nat → FetchOutcome) (n : Nat) :
    (RetryEvent.fetchAttempt n ∈ (connectRetry out).1) ↔
      (n = 1 ∨ (n = 2 ∧ retryableB (out 1) = true)
        ∨ (n = 3 ∧ retryableB (out 1) = true ∧ retryableB (out 2) = true)) := by
  rw [connect_eq]
  simp only [trace1, trace2, trace3]
  have h1 := retryStatusB_le (out 1)
  have h2 := retryStatusB_le (out 2)
  have h3 := retryStatusB_le (out 3)
  rcases r1 : retryableB (out 1) <;> rcases r2 : retryableB (out 2)
    <;> rcases r3 : retryableB (out 3)
    <;> rcases q1 : retryStatusB (out 1) <;> rcases q2 : retryStatusB (out 2)
    <;> rcases q3 : retryStatusB (out 3)
    <;> simp_all

/-- Exactly which backoff sleeps appear in a run of the retry loop. -/
theorem mem_sleep_connect (out : Nat → FetchOutcome) (k : Nat) :
    (RetryEvent.sleep k ∈ (connectRetry out).1) ↔
      ((k = 1000 ∧ retryStatusB (out 1) = true)
        ∨ (k = 2000 ∧ retryableB (out 1) = true ∧ retryStatusB (out 2) = true)
        ∨ (k = 3000 ∧ retryableB (out 1) = true ∧ retryableB (out 2) = true
            ∧ retryStatusB (out 3) = true)) := by
  rw [connect_eq]
  simp only [trace1, trace2, trace3]
  have h1 := retryStatusB_le (out 1)
  have h2 := retryStatusB_le (out 2)
  have h3 := retryStatusB_le (out 3)
  rcases r1 : retryableB (out 1) <;> rcases r2 : retryableB (out 2)
    <;> rcases r3 : retryableB (out 3)
    <;> rcases q1 : retryStatusB (out 1) <;> rcases q2 : retryStatusB (out 2)
    <;> rcases q3 : retryStatusB (out 3)
    <;> simp_all

/-- C1 amended: in the retrying variants (`part_000`, `part_002`) the
upstream request is retried if and only if the previous attempt
returned 429 or 503 or threw a network error, for at most 3 total
attempts sharing one budget; any other status ends the loop at once
and is returned as-is; before a retry on a retryable status the
connector sleeps `attempt * 1000` ms; a network failure on the final
attempt rethrows the last error.  The `main.ts` variant performs
exactly one attempt with no retry: any response status — including 429
and 503 — is returned as-is and a network error propagates at once. -/
theorem retry_policy_amended :
    (∀ out : Nat → FetchOutcome,
      (RetryEvent.fetchAttempt 1 ∈ (connectRetry out).1)
      ∧ (∀ n : Nat,
          RetryEvent.fetchAttempt (n + 1) ∈ (connectRetry out).1 ↔
            (n = 0 ∨ (RetryEvent.fetchAttempt n ∈ (connectRetry out).1 ∧ n < 3
              ∧ retryableB (out n) = true)))
      ∧ (∀ n : Nat, RetryEvent.fetchAttempt n ∈ (connectRetry out).1 → 1 ≤ n ∧ n ≤ 3)
      ∧ (∀ n s : Nat, RetryEvent.fetchAttempt n ∈ (connectRetry out).1 →
          out n = .ok s → (s = 503 ∨ s = 429) →
            RetryEvent.sleep (1000 * n) ∈ (connectRetry out).1)
      ∧ (∀ n s : Nat, RetryEvent.fetchAttempt n ∈ (connectRetry out).1 →
          out n = .ok s → ¬(s = 503 ∨ s = 429) →
            (connectRetry out).2 = .returned s
            ∧ RetryEvent.fetchAttempt (n + 1) ∉ (connectRetry out).1)
      ∧ (RetryEvent.fetchAttempt 3 ∈ (connectRetry out).1 → out 3 = .netErr →
            (connectRetry out).2 = .netThrow))
    ∧ (∀ (out : Nat → FetchOutcome) (s : Nat),
        (out 1 = .ok s → mainFetch out = ([RetryEvent.fetchAttempt 1], .returned s))
        ∧ (out 1 = .netErr → mainFetch out = ([RetryEvent.fetchAttempt 1], .netThrow))) := by
  constructor
  · intro out
    refine ⟨?_, ?_, ?_, ?_, ?_, ?_⟩
    · simp [mem_attempt_connect]
    · intro n
      rcases n with _ | _ | _ | n <;> simp [mem_attempt_connect]
    · intro n h
      rw [mem_attempt_connect] at h
      omega
    · intro n s hmem hout hs
      have hq : retryStatusB (out n) = true := by
        rw [hout]
        rcases hs with rfl | rfl <;> rfl
      have hb : retryableB (out n) = true := retryStatusB_le _ hq
      rw [mem_attempt_connect] at hmem
      rw [mem_sleep_connect]
      rcases hmem with rfl | ⟨rfl, hr1⟩ | ⟨rfl, hr1, hr2⟩
      · exact Or.inl ⟨rfl, hq⟩
      · exact Or.inr (Or.inl ⟨rfl, hr1, hq⟩)
      · exact Or.inr (Or.inr ⟨rfl, hr1, hr2, hq⟩)
    · intro n s hmem hout hs
      have hb : retryableB (FetchOutcome.ok s) = false := by
        simp [retryableB]
        omega
      rw [mem_attempt_connect] at hmem
      rw [connect_eq]
      constructor
      · show resLvl out = RetryResult.returned s
        rcases hmem with rfl | ⟨rfl, hr1⟩ | ⟨rfl, hr1, hr2⟩
        · simp [resLvl, hout, hb, resOf]
        · simp [resLvl, hr1, hout, hb, resOf]
        · simp [resLvl, hr1, hr2, hout, hb, resOf]
      · show RetryEvent.fetchAttempt (n + 1) ∉ (trace1 out, resLvl out).1
        have hch := mem_attempt_connect out (n + 1)
        rw [connect_eq] at hch
        rw [hch]
        rcases hmem with rfl | ⟨rfl, hr1⟩ | ⟨rfl, hr1, hr2⟩
        · simp [hout, hb]
        · simp [hout, hb, hr1]
        · norm_num
    · intro hmem hout
      rw [mem_attempt_connect] at hmem
      rcases hmem with h | ⟨h, _⟩ | ⟨_, hr1, hr2⟩
      · omega
      · omega
      · rw [connect_eq]
        show resLvl out = RetryResult.netThrow
        simp [resLvl, hr1, hr2, hout, resOf]
  · intro out s
    constructor
    · intro h
      simp [mainFetch, h]
    · intro h
      simp [mainFetch, h]

/-- C1 witness: with every attempt answering 429, the first attempt is
followed by a 1000 ms backoff sleep. -/
theorem retry_policy_amended_witness :
    RetryEvent.sleep 1000 ∈ (connectRetry c1out).1 :=
  (retry_policy_amended.1 c1out).2.2.2.1 1 429
    (by rw [connect_eq]; decide) rfl (by decide)

/-! ## Claim C4, amended -/

/-- C4 amended: in `part_001`, `fastWrite` marks the session finished the
moment the sink rejects a write and updates `lastWriteTime` on success;
once the session is finished every subsequent call is a no-op that
returns without attempting a write.  It returns no success boolean.
The boolean-returning `safeWrite` of `main.ts` / `part_002` returns
`false` on a rejected write and `true` on success but keeps no state:
it always attempts the write and marks nothing terminated. -/
theorem submit_semantics_amended :
    (∀ (s : Sess) (now : Nat) (rej : Bool), s.isFinished = true →
        fastWrite s now rej = (s, false))
    ∧ (∀ (s : Sess) (now : Nat), s.isFinished = false →
        (fastWrite s now true).1.isFinished = true ∧ (fastWrite s now true).2 = true)
    ∧ (∀ (s : Sess) (now : Nat), s.isFinished = false →
        (fastWrite s now false).1.lastWriteTime = now
        ∧ (fastWrite s now false).1.isFinished = false
        ∧ (fastWrite s now false).2 = true)
    ∧ (∀ rej : Bool, safeWriteM rej = (!rej, true)) := by
  refine ⟨?_, ?_, ?_, fun _ => rfl⟩
  · intro s now rej h
    simp [fastWrite, h]
  · intro s now h
    simp [fastWrite, h]
  · intro s now h
    simp [fastWrite, h]

/-- C4 witness: a rejected write on a live session marks it finished. -/
theorem submit_semantics_amended_witness :
    (fastWrite { lastWriteTime := 0, isWriting := false, isFinished := false } 5 true).1.isFinished
      = true :=
  (submit_semantics_amended.2.1 { lastWriteTime := 0, isWriting := false, isFinished := false }
    5 rfl).1

/-! ## Claim C7 -/

/-- C7: a request to `/models/foo:stream` with an empty query is sent
upstream as `/v1beta/models/foo:stream?alt=sse`; in general `alt=sse`
is appended exactly when the caller supplied no `alt` parameter (an
existing `alt` is left untouched and nothing else changes); the host
header is overridden to the upstream hostname, every client-IP
forwarding header is removed, and every other header passes through
unchanged. -/
theorem request_translation :
    buildTarget ("/models/foo:stream").toList [] = ("/v1beta/models/foo:stream?alt=sse").toList
    ∧ (∀ ps : List (String × String), hasAlt ps = true ↔ ∃ v, (altKey, v) ∈ ps)
    ∧ (∀ ps : List (String × String), hasAlt ps = false →
        forceSSE ps = ps ++ [(altKey, sseVal)])
    ∧ (∀ ps : List (String × String), hasAlt ps = true → forceSSE ps = ps)
    ∧ (∀ hs : List (String × String), (hostKey, upstreamHost) ∈ buildHeaders hs)
    ∧ (∀ (hs : List (String × String)) (v : String),
        (hostKey, v) ∈ buildHeaders hs → v = upstreamHost)
    ∧ (∀ (hs : List (String × String)) (v : String), (xffKey, v) ∉ buildHeaders hs)
    ∧ (∀ (hs : List (String × String)) (k v : String), k ≠ hostKey → k ≠ xffKey →
        ((k, v) ∈ buildHeaders hs ↔ (k, v) ∈ hs)) := by
  refine ⟨by decide, ?_, ?_, ?_, ?_, ?_, ?_, ?_⟩
  · intro ps
    simp only [hasAlt, List.any_eq_true, beq_iff_eq]
    constructor
    · rintro ⟨⟨k, v⟩, hmem, rfl⟩
      exact ⟨v, hmem⟩
    · rintro ⟨v, hmem⟩
      exact ⟨(altKey, v), hmem, rfl⟩
  · intro ps h
    simp [forceSSE, h]
  · intro ps h
    simp [forceSSE, h]
  · intro hs
    simp [buildHeaders, delHdr, setHdr, List.mem_filter, hostKey, xffKey]
  · intro hs v hmem
    simp only [buildHeaders, delHdr, setHdr, List.filter_append, List.mem_append,
      List.mem_filter, bne_iff_ne, ne_eq] at hmem
    rcases hmem with ⟨⟨_, hne⟩, _⟩ | h
    · exact absurd trivial hne
    · simp_all [hostKey, xffKey]
  · intro hs v hmem
    simp only [buildHeaders, delHdr, setHdr, List.filter_append, List.mem_append,
      List.mem_filter, bne_iff_ne, ne_eq] at hmem
    rcases hmem with ⟨_, hne⟩ | h
    · exact absurd trivial hne
    · simp_all [hostKey, xffKey]
  · intro hs k v hk hx
    simp [buildHeaders, delHdr, setHdr, List.mem_filter, List.filter_append, hk, hx]

/-- C7 witness: an unrelated header entry passes through the header
construction untouched. -/
theorem request_translation_witness :
    (("accept" : String), ("text/event-stream" : String))
        ∈ buildHeaders [(("accept" : String), ("text/event-stream" : String))] :=
  (request_translation.2.2.2.2.2.2.2 [(("accept" : String), ("text/event-stream" : String))]
    ("accept" : String) ("text/event-stream" : String) (by decide) (by decide)).mpr
    (by decide)

/-! ## Claim C9, amended -/

/-- Dropping up to the first rejected write skips over any other event. -/
theorem afterFirstRej_cons_ne (e : PEv) (tr : List PEv) (h : e ≠ PEv.write true) :
    afterFirstRej (e :: tr) = afterFirstRej tr := by
  simp [afterFirstRej, List.dropWhile_cons, h]

/-- The part after the first rejected write, when it comes first. -/
theorem afterFirstRej_cons_rej (tr : List PEv) :
    afterFirstRej (PEv.write true :: tr) = tr := by
  simp [afterFirstRej, List.dropWhile_cons]

/-- A trace with no rejected write has nothing after the first one. -/
theorem afterFirstRej_of_not_mem (tr : List PEv) (h : PEv.write true ∉ tr) :
    afterFirstRej tr = [] := by
  induction tr with
  | nil => rfl
  | cons e es ih =>
    rw [List.mem_cons, not_or] at h
    rw [afterFirstRej_cons_ne e es (fun he => h.1 he.symm)]
    exact ih h.2

/-- Once `isFinished` is set, the `part_001` pump performs exactly one
more upstream read and stops, with no write and no error frame. -/
theorem p1Trace_finished (rej : Nat → Bool) (up : List UpEv) (i : Nat) :
    p1Trace rej up i true
      = match up with
        | [] => [PEv.readDone]
        | UpEv.fail :: _ => [PEv.readErr]
        | UpEv.chunk _ :: _ => [PEv.readChunk] := by
  rcases up with _ | ⟨_ | c, cs⟩ <;> simp [p1Trace]

/-- C9 amended: after a downstream write rejection the disconnect is
silent — no error-notification frame is ever emitted after the
rejected write, in any variant.  In `main.ts` (and `part_002`) the
pump breaks immediately: no upstream read at all occurs after the
rejected write.  In `part_001` the pump stops within one read-loop
iteration: at most one further upstream read occurs (the loop's next
`reader.read()`, after which the `isFinished` check breaks). -/
theorem pump_stop_amended :
    (∀ (rej : Nat → Bool) (up : List UpEv) (i : Nat),
        readsAfterFirstRej (mainTrace rej up i) = 0)
    ∧ (∀ (rej : Nat → Bool) (up : List UpEv) (i : Nat) (fin : Bool),
        readsAfterFirstRej (p1Trace rej up i fin) ≤ 1)
    ∧ (∀ (rej : Nat → Bool) (up : List UpEv) (i : Nat),
        errFramesAfterFirstRej (mainTrace rej up i) = 0)
    ∧ (∀ (rej : Nat → Bool) (up : List UpEv) (i : Nat) (fin : Bool),
        errFramesAfterFirstRej (p1Trace rej up i fin) = 0) := by
  refine ⟨?_, ?_, ?_, ?_⟩
  · intro rej up
    induction up with
    | nil =>
      intro i
      simp [readsAfterFirstRej, mainTrace, afterFirstRej_of_not_mem]
    | cons u cs ih =>
      intro i
      rcases u with c | _
      · rcases hrej : rej i with _ | _
        · simp only [mainTrace, hrej, if_neg Bool.false_ne_true]
          rw [readsAfterFirstRej, afterFirstRej_cons_ne _ _ (by simp),
            afterFirstRej_cons_ne _ _ (by simp)]
          exact ih (i + 1)
        · simp only [mainTrace, hrej, if_pos rfl]
          rw [readsAfterFirstRej, afterFirstRej_cons_ne _ _ (by simp),
            afterFirstRej_cons_rej]
          rfl
      · simp [readsAfterFirstRej, mainTrace, afterFirstRej_of_not_mem]
  · intro rej up
    induction up with
    | nil =>
      intro i fin
      simp [readsAfterFirstRej, p1Trace, afterFirstRej_of_not_mem]
    | cons u cs ih =>
      intro i fin
      rcases u with c | _
      · rcases fin with _ | _
        · rcases hrej : rej i with _ | _
          · simp only [p1Trace, hrej, if_neg Bool.false_ne_true]
            rw [readsAfterFirstRej, afterFirstRej_cons_ne _ _ (by simp),
              afterFirstRej_cons_ne _ _ (by simp)]
            exact ih (i + 1) false
          · simp only [p1Trace, hrej, if_neg Bool.false_ne_true]
            rw [readsAfterFirstRej, afterFirstRej_cons_ne _ _ (by simp),
              afterFirstRej_cons_rej, p1Trace_finished]
            rcases cs with _ | ⟨_ | c2, cs2⟩ <;> simp [readsAfterFirstRej, isReadEv]
        · simp only [p1Trace, if_pos rfl]
          simp [readsAfterFirstRej, afterFirstRej_of_not_mem]
      · rcases fin with _ | _
        · simp [readsAfterFirstRej, p1Trace, afterFirstRej_of_not_mem]
        · simp [readsAfterFirstRej, p1Trace, afterFirstRej_of_not_mem]
  · intro rej up
    induction up with
    | nil =>
      intro i
      simp [errFramesAfterFirstRej, mainTrace, afterFirstRej_of_not_mem]
    | cons u cs ih =>
      intro i
      rcases u with c | _
      · rcases hrej : rej i with _ | _
        · simp only [mainTrace, hrej, if_neg Bool.false_ne_true]
          rw [errFramesAfterFirstRej, afterFirstRej_cons_ne _ _ (by simp),
            afterFirstRej_cons_ne _ _ (by simp)]
          exact ih (i + 1)
        · simp only [mainTrace, hrej, if_pos rfl]
          rw [errFramesAfterFirstRej, afterFirstRej_cons_ne _ _ (by simp),
            afterFirstRej_cons_rej]
          rfl
      · simp [errFramesAfterFirstRej, mainTrace, afterFirstRej_of_not_mem]
  · intro rej up
    induction up with
    | nil =>
      intro i fin
      simp [errFramesAfterFirstRej, p1Trace, afterFirstRej_of_not_mem]
    | cons u cs ih =>
      intro i fin
      rcases u with c | _
      · rcases fin with _ | _
        · rcases hrej : rej i with _ | _
          · simp only [p1Trace, hrej, if_neg Bool.false_ne_true]
            rw [errFramesAfterFirstRej, afterFirstRej_cons_ne _ _ (by simp),
              afterFirstRej_cons_ne _ _ (by simp)]
            exact ih (i + 1) false
          · simp only [p1Trace, hrej, if_neg Bool.false_ne_true]
            rw [errFramesAfterFirstRej, afterFirstRej_cons_ne _ _ (by simp),
              afterFirstRej_cons_rej, p1Trace_finished]
            rcases cs with _ | ⟨_ | c2, cs2⟩ <;> simp [errFramesAfterFirstRej]
        · simp only [p1Trace, if_pos rfl]
          simp [errFramesAfterFirstRej, afterFirstRej_of_not_mem]
      · rcases fin with _ | _
        · simp [errFramesAfterFirstRej, p1Trace, afterFirstRej_of_not_mem]
        · simp [errFramesAfterFirstRej, p1Trace, afterFirstRej_of_not_mem]

/-! ## Claim C3, amended -/

/-- An atomic `fastWrite` call ends with `isWriting` back at `false`. -/
theorem fastWrite_isWriting (s : Sess) (now : Nat) (rej : Bool)
    (h : s.isWriting = false) : (fastWrite s now rej).1.isWriting = false := by
  rcases hf : s.isFinished with _ | _ <;> rcases rej with _ | _ <;> simp [fastWrite, hf, h]

/-- Every session step ends with `isWriting` back at `false`. -/
theorem stepS_isWriting (s : Sess) (e : Ev) (h : s.isWriting = false) :
    (stepS s e).1.isWriting = false := by
  rcases e with ⟨t, rej⟩ | ⟨t, rej⟩
  · exact fastWrite_isWriting s t rej h
  · rcases hf : s.isFinished with _ | _
    · by_cases hg : s.isWriting = false ∧ 10000 < t - s.lastWriteTime
      · simp only [stepS, hf, if_neg Bool.false_ne_true, if_pos hg]
        exact fastWrite_isWriting s t rej h
      · have hni : ¬(10000 < t - s.lastWriteTime) := fun hi => hg ⟨h, hi⟩
        simp [stepS, hf, hni, h]
    · simp [stepS, hf, h]

/-- A whole run ends with `isWriting` back at `false`. -/
theorem runS_isWriting (es : List Ev) (s : Sess) (h : s.isWriting = false) :
    (runS s es).1.isWriting = false := by
  induction es generalizing s with
  | nil => exact h
  | cons e es ih =>
    simp only [runS]
    exact ih _ (stepS_isWriting s e h)

/-- C3 amended: in the `part_001` variant a heartbeat tick after any
event history submits a keepalive if and only if the session is not
finished and the time since the last successful downstream write is
strictly greater than `idleThresholdMs` (10000 ms); a successful data
write between ticks resets the idle clock, so a tick within the
threshold of it submits nothing.  In the `main.ts` variant the
heartbeat submits a keepalive on every tick unconditionally while the
interval is alive, whatever the idle time. -/
theorem heartbeat_gate_amended :
    (∀ (s0 : Sess) (h : List Ev) (t : Nat) (rej : Bool), s0.isWriting = false →
        ((stepS (runS s0 h).1 (Ev.tick t rej)).2 = some t ↔
          ((runS s0 h).1.isFinished = false
            ∧ 10000 < t - (runS s0 h).1.lastWriteTime)))
    ∧ (∀ (s0 : Sess) (h : List Ev) (t : Nat) (rej : Bool),
        ¬((runS s0 h).1.isFinished = false ∧ 10000 < t - (runS s0 h).1.lastWriteTime) →
        (stepS (runS s0 h).1 (Ev.tick t rej)).2 = none)
    ∧ (∀ (s : Sess) (t' : Nat), s.isFinished = false →
        (stepS s (Ev.data t' false)).1.lastWriteTime = t'
        ∧ (stepS s (Ev.data t' false)).1.isFinished = false)
    ∧ (∀ (s : Sess) (t t' : Nat) (rej : Bool), s.isFinished = false → t - t' ≤ 10000 →
        (stepS (stepS s (Ev.data t' false)).1 (Ev.tick t rej)).2 = none)
    ∧ (∀ (t : Nat) (rej : Bool) (es : List Ev),
        runMainHB false (Ev.tick t rej :: es) = t :: runMainHB rej es) := by
  refine ⟨?_, ?_, ?_, ?_, ?_⟩
  · intro s0 h t rej hw0
    have hw : (runS s0 h).1.isWriting = false := runS_isWriting h s0 hw0
    rcases hf : (runS s0 h).1.isFinished with _ | _
    · by_cases hi : 10000 < t - (runS s0 h).1.lastWriteTime
      · simp [stepS, hf, hw, hi]
      · simp [stepS, hf, hw, hi]
    · simp [stepS, hf]
  · intro s0 h t rej hng
    rcases hf : (runS s0 h).1.isFinished with _ | _
    · have hi : ¬(10000 < t - (runS s0 h).1.lastWriteTime) := by
        intro hi
        exact hng ⟨hf, hi⟩
      by_cases hw : (runS s0 h).1.isWriting = false
      · simp [stepS, hf, hw, hi]
      · simp [stepS, hf, hw]
    · simp [stepS, hf]
  · intro s t' hf
    simp [stepS, fastWrite, hf]
  · intro s t t' rej hf hle
    have hni : ¬(10000 < t - t') := by omega
    simp [stepS, fastWrite, hf, hni]
  · intro t rej es
    rfl

/-- C3 witness: from a fresh session with its activity clock at 0, a tick
at 20000 ms submits a keepalive. -/
theorem heartbeat_gate_amended_witness :
    (stepS (runS { lastWriteTime := 0, isWriting := false, isFinished := false } []).1
        (Ev.tick 20000 false)).2 = some 20000 :=
  (heartbeat_gate_amended.1 { lastWriteTime := 0, isWriting := false, isFinished := false }
    [] 20000 false rfl).mpr ⟨rfl, by decide⟩

/-! ## Claim C2, amended -/

/-- Running a schedule extended by one choice is one more step. -/
theorem crun_append_one (s : CState) (cs : List CChoice) (c : CChoice) :
    crun s (cs ++ [c]) = cstep (crun s cs) c := by
  induction cs generalizing s with
  | nil => rfl
  | cons c0 cs ih => simp [crun, ih]

/-- Closing a write interval at the end of the log never creates an
overlap. -/
theorem overlapAux_append_exit (l : List WEv) (w : Who) :
    ∀ n, overlapAux (l ++ [WEv.exit w]) n = overlapAux l n := by
  induction l with
  | nil => intro n; rfl
  | cons e es ih =>
    intro n
    rcases e with w' | w'
    · simp only [List.cons_append, overlapAux]
      by_cases h : 1 ≤ n
      · simp [h]
      · simp only [if_neg h]
        exact ih (n + 1)
    · simp only [List.cons_append, overlapAux]
      exact ih (n - 1)

/-- Opening an interval at the end of the log increments the open count. -/
theorem openEnd_append_enter (l : List WEv) (w : Who) :
    ∀ n, openEnd (l ++ [WEv.enter w]) n = openEnd l n + 1 := by
  induction l with
  | nil => intro n; rfl
  | cons e es ih =>
    intro n
    rcases e with w' | w' <;> simp only [List.cons_append, openEnd] <;> exact ih _

/-- Closing an interval at the end of the log decrements the open count. -/
theorem openEnd_append_exit (l : List WEv) (w : Who) :
    ∀ n, openEnd (l ++ [WEv.exit w]) n = openEnd l n - 1 := by
  induction l with
  | nil => intro n; rfl
  | cons e es ih =>
    intro n
    rcases e with w' | w' <;> simp only [List.cons_append, openEnd] <;> exact ih _

/-- Opening an interval at the end of the log creates an overlap exactly
when one was already there or some interval is still open. -/
theorem overlapAux_append_enter (l : List WEv) (w : Who) :
    ∀ n, overlapAux (l ++ [WEv.enter w]) n
      = (overlapAux l n || decide (1 ≤ openEnd l n)) := by
  induction l with
  | nil =>
    intro n
    by_cases h : 1 ≤ n <;> simp [overlapAux, openEnd, h]
  | cons e es ih =>
    intro n
    rcases e with w' | w'
    · simp only [List.cons_append, overlapAux, openEnd]
      by_cases h : 1 ≤ n
      · simp [h]
      · simp only [if_neg h]
        exact ih (n + 1)
    · simp only [List.cons_append, overlapAux, openEnd]
      exact ih (n - 1)

/-- An overlap-free log leaves at most one interval open. -/
theorem overlapAux_false_le (l : List WEv) :
    ∀ n, overlapAux l n = false → n ≤ 1 → openEnd l n ≤ 1 := by
  induction l with
  | nil => intro n _ h1; exact h1
  | cons e es ih =>
    intro n hov h1
    rcases e with w' | w'
    · simp only [overlapAux] at hov
      by_cases h : 1 ≤ n
      · rw [if_pos h] at hov
        cases hov
      · rw [if_neg h] at hov
        have hn0 : n = 0 := by omega
        subst hn0
        simpa [openEnd] using ih 1 hov (by omega)
    · simp only [overlapAux] at hov
      simp only [openEnd]
      exact ih (n - 1) hov (by omega)

/-- One scheduler step preserves the session invariant: the open
intervals of the log are exactly the mid-write tasks, and — as long as
no overlap has occurred — `isWriting` is set exactly when some task is
mid-write. -/
theorem cstep_inv (s : CState) (c : CChoice)
    (h3 : openEnd s.log 0
      = (if s.pumpPC = TPC.writing then 1 else 0) + (if s.hbPC = TPC.writing then 1 else 0))
    (h2 : hasOverlap s.log = false →
      (s.isWriting = true ↔ (s.pumpPC = TPC.writing ∨ s.hbPC = TPC.writing))) :
    openEnd (cstep s c).log 0
      = (if (cstep s c).pumpPC = TPC.writing then 1 else 0)
        + (if (cstep s c).hbPC = TPC.writing then 1 else 0)
    ∧ (hasOverlap (cstep s c).log = false →
      ((cstep s c).isWriting = true
        ↔ ((cstep s c).pumpPC = TPC.writing ∨ (cstep s c).hbPC = TPC.writing))) := by
  rcases c with now | ⟨rej, now⟩ | now | ⟨rej, now⟩
  · by_cases hg : s.pumpPC = TPC.idle ∧ s.isFinished = false
    · simp only [cstep, if_pos hg]
      constructor
      · rw [openEnd_append_enter, h3, hg.1]
        rcases s.hbPC <;> simp
      · intro hov
        rw [hasOverlap, overlapAux_append_enter, Bool.or_eq_false_iff] at hov
        have hz : openEnd s.log 0 = 0 := by
          have := hov.2
          simp at this
          omega
        rw [h3, hg.1] at hz
        rcases hhb : s.hbPC with _ | _
        · simp
        · rw [hhb] at hz
          simp at hz
    · simp only [cstep, if_neg hg]
      exact ⟨h3, h2⟩
  · by_cases hg : s.pumpPC = TPC.writing
    · have hle : hasOverlap s.log = false → s.hbPC = TPC.idle := by
        intro hov
        have hl := overlapAux_false_le s.log 0 hov (by omega)
        rw [h3, hg] at hl
        rcases hhb : s.hbPC with _ | _
        · rfl
        · rw [hhb] at hl
          simp at hl
      rcases rej with _ | _
      · simp only [cstep, if_pos hg, Bool.false_eq_true, if_neg (by simp : ¬False)]
        constructor
        · rw [openEnd_append_exit, h3, hg]
          rcases s.hbPC <;> simp
        · intro hov
          rw [hasOverlap, overlapAux_append_exit] at hov
          rw [hle hov]
          simp
      · simp only [cstep, if_pos hg, if_true]
        constructor
        · rw [openEnd_append_exit, h3, hg]
          rcases s.hbPC <;> simp
        · intro hov
          rw [hasOverlap, overlapAux_append_exit] at hov
          rw [hle hov]
          simp
    · simp only [cstep, if_neg hg]
      constructor
      · rw [h3, if_neg hg]
      · exact h2
  · by_cases hg : s.hbPC = TPC.idle ∧ s.isFinished = false ∧ s.isWriting = false
        ∧ 10000 < now - s.lastWriteTime
    · simp only [cstep, if_pos hg]
      constructor
      · rw [openEnd_append_enter, h3, hg.1]
        rcases s.pumpPC <;> simp
      · intro hov
        rw [hasOverlap, overlapAux_append_enter, Bool.or_eq_false_iff] at hov
        have hz : openEnd s.log 0 = 0 := by
          have := hov.2
          simp at this
          omega
        rw [h3, hg.1] at hz
        rcases hp : s.pumpPC with _ | _
        · simp
        · rw [hp] at hz
          simp at hz
    · simp only [cstep, if_neg hg]
      exact ⟨h3, h2⟩
  · by_cases hg : s.hbPC = TPC.writing
    · have hle : hasOverlap s.log = false → s.pumpPC = TPC.idle := by
        intro hov
        have hl := overlapAux_false_le s.log 0 hov (by omega)
        rw [h3, hg] at hl
        rcases hp : s.pumpPC with _ | _
        · rfl
        · rw [hp] at hl
          simp at hl
      rcases rej with _ | _
      · simp only [cstep, if_pos hg, Bool.false_eq_true, if_neg (by simp : ¬False)]
        constructor
        · rw [openEnd_append_exit, h3, hg]
          rcases s.pumpPC <;> simp
        · intro hov
          rw [hasOverlap, overlapAux_append_exit] at hov
          rw [hle hov]
          simp
      · simp only [cstep, if_pos hg, if_true]
        constructor
        · rw [openEnd_append_exit, h3, hg]
          rcases s.pumpPC <;> simp
        · intro hov
          rw [hasOverlap, overlapAux_append_exit] at hov
          rw [hle hov]
          simp
    · simp only [cstep, if_neg hg]
      constructor
      · rw [h3, if_neg hg]
      · exact h2

/-- The session invariant holds along every schedule. -/
theorem crun_inv (cs : List CChoice) (s : CState)
    (h3 : openEnd s.log 0
      = (if s.pumpPC = TPC.writing then 1 else 0) + (if s.hbPC = TPC.writing then 1 else 0))
    (h2 : hasOverlap s.log = false →
      (s.isWriting = true ↔ (s.pumpPC = TPC.writing ∨ s.hbPC = TPC.writing))) :
    openEnd (crun s cs).log 0
      = (if (crun s cs).pumpPC = TPC.writing then 1 else 0)
        + (if (crun s cs).hbPC = TPC.writing then 1 else 0)
    ∧ (hasOverlap (crun s cs).log = false →
      ((crun s cs).isWriting = true
        ↔ ((crun s cs).pumpPC = TPC.writing ∨ (crun s cs).hbPC = TPC.writing))) := by
  induction cs generalizing s with
  | nil => exact ⟨h3, h2⟩
  | cons c cs ih =>
    have hstep := cstep_inv s c h3 h2
    exact ih (cstep s c) hstep.1 hstep.2

/-- C2 amended: the write intervals of the pump and the heartbeat are
not mutually excluded — two writes can be in flight at once — but the
failure is one-directional: along every schedule from a fresh session,
the first overlap ever created is a data-chunk write beginning while a
keepalive write is still in flight (`fastWrite` guards only on
`isFinished`), and a keepalive write never begins while `isWriting` is
set, so a keepalive never opens an overlap. -/
theorem write_serializer_amended :
    (∀ (cs : List CChoice) (c : CChoice),
        hasOverlap (crun cInit cs).log = false →
        hasOverlap (crun cInit (cs ++ [c])).log = true →
        (∃ now, c = CChoice.pumpBegin now) ∧ (crun cInit cs).hbPC = TPC.writing)
    ∧ (∀ (s : CState) (now : Nat), s.isWriting = true → cstep s (CChoice.hbTick now) = s) := by
  constructor
  · intro cs c hov hov'
    rw [crun_append_one] at hov'
    obtain ⟨h3, h2⟩ := crun_inv cs cInit (by simp [cInit, openEnd]) (by simp [cInit, hasOverlap])
    rcases c with now | ⟨rej, now⟩ | now | ⟨rej, now⟩
    · by_cases hg : (crun cInit cs).pumpPC = TPC.idle ∧ (crun cInit cs).isFinished = false
      · refine ⟨⟨now, rfl⟩, ?_⟩
        simp only [cstep, if_pos hg] at hov'
        rw [hasOverlap, overlapAux_append_enter] at hov'
        rw [hasOverlap] at hov
        rw [hov, Bool.false_or] at hov'
        have hge : 1 ≤ openEnd (crun cInit cs).log 0 := of_decide_eq_true hov'
        rw [h3, hg.1] at hge
        rcases hhb : (crun cInit cs).hbPC with _ | _
        · rw [hhb] at hge
          simp at hge
        · rfl
      · simp only [cstep, if_neg hg] at hov'
        rw [hov] at hov'
        cases hov'
    · by_cases hg : (crun cInit cs).pumpPC = TPC.writing
      · exfalso
        rcases rej with _ | _
        · simp only [cstep, if_pos hg, Bool.false_eq_true, if_neg (by simp : ¬False)] at hov'
          rw [hasOverlap, overlapAux_append_exit, ← hasOverlap, hov] at hov'
          cases hov'
        · simp only [cstep, if_pos hg, if_true] at hov'
          rw [hasOverlap, overlapAux_append_exit, ← hasOverlap, hov] at hov'
          cases hov'
      · simp only [cstep, if_neg hg] at hov'
        rw [hov] at hov'
        cases hov'
    · exfalso
      by_cases hg : (crun cInit cs).hbPC = TPC.idle ∧ (crun cInit cs).isFinished = false
          ∧ (crun cInit cs).isWriting = false ∧ 10000 < now - (crun cInit cs).lastWriteTime
      · simp only [cstep, if_pos hg] at hov'
        rw [hasOverlap, overlapAux_append_enter] at hov'
        rw [hasOverlap] at hov
        rw [hov, Bool.false_or] at hov'
        have hge : 1 ≤ openEnd (crun cInit cs).log 0 := of_decide_eq_true hov'
        have hno : ¬((crun cInit cs).pumpPC = TPC.writing ∨ (crun cInit cs).hbPC = TPC.writing) := by
          intro hOr
          have := (h2 hov).mpr hOr
          rw [hg.2.2.1] at this
          cases this
        rw [h3] at hge
        rcases hp : (crun cInit cs).pumpPC with _ | _
        · rcases hhb : (crun cInit cs).hbPC with _ | _
          · rw [hp, hhb] at hge
            simp at hge
          · exact hno (Or.inr hhb)
        · exact hno (Or.inl hp)
      · simp only [cstep, if_neg hg] at hov'
        rw [hov] at hov'
        cases hov'
    · by_cases hg : (crun cInit cs).hbPC = TPC.writing
      · exfalso
        rcases rej with _ | _
        · simp only [cstep, if_pos hg, Bool.false_eq_true, if_neg (by simp : ¬False)] at hov'
          rw [hasOverlap, overlapAux_append_exit, ← hasOverlap, hov] at hov'
          cases hov'
        · simp only [cstep, if_pos hg, if_true] at hov'
          rw [hasOverlap, overlapAux_append_exit, ← hasOverlap, hov] at hov'
          cases hov'
      · simp only [cstep, if_neg hg] at hov'
        rw [hov] at hov'
        cases hov'
  · intro s now h
    simp [cstep, h]

/-- C2 witness: a heartbeat tick while a data write is in flight
(`isWriting` set) changes nothing and submits nothing. -/
theorem write_serializer_amended_witness :
    cstep
      { isWriting := true, isFinished := false, lastWriteTime := 0,
        pumpPC := TPC.writing, hbPC := TPC.idle, log := [WEv.enter Who.pump] }
      (CChoice.hbTick 20000)
      = { isWriting := true, isFinished := false, lastWriteTime := 0,
          pumpPC := TPC.writing, hbPC := TPC.idle, log := [WEv.enter Who.pump] } :=
  write_serializer_amended.2
    { isWriting := true, isFinished := false, lastWriteTime := 0,
      pumpPC := TPC.writing, hbPC := TPC.idle, log := [WEv.enter Who.pump] }
    20000 rfl
